import Mathlib

/-!
Verification of the orchestration core of `tools/tdd.js`: the
compilation-completion promise (`createCompilationPromise`), the
request-admission gate (`appPromise` / `appPromiseResolve` /
`appPromiseIsResolved`), the incremental-patch check loop
(`checkForUpdate`), the watch callback wired by `serverCompiler.watch`,
the once-only cleanup closure (`cleanupAndExit`), and the startup flow
of `start`.

The JavaScript program is single-threaded with cooperative asynchrony,
so each component is embedded as a deterministic state machine driven by
an explicit list of events (compiler hook notifications, inbound
requests, termination-signal deliveries).  Promise settlement is modelled
by `Option`: a promise settles at most once, and later calls to
`resolve`/`reject` on a settled promise are ignored, exactly as in the
JavaScript semantics.
-/

namespace Tdd

/-! ### Compilation promise (`createCompilationPromise`, tdd.js lines 30-51)

The promise wraps one webpack compiler.  The `compile` hook resets the
timer; the `done` hook logs the elapsed duration and then settles the
promise — rejecting on `stats.hasErrors()`, resolving with `stats`
otherwise.  A JavaScript promise keeps only its first settlement. -/

/-- Build statistics handed to the `done` hook.  `hasErrors` embeds
`stats.hasErrors()`; `id` distinguishes distinct stats objects. -/
structure Stats where
  hasErrors : Bool
  id : Nat := 0
deriving DecidableEq, Repr

/-- Terminal outcome of a compilation promise: `resolve(stats)` or
`reject(new Error('Compilation failed!'))`. -/
inductive COutcome where
  | success (stats : Stats)
  | failure
deriving DecidableEq, Repr

/-- A notification from the compiler to the hooks tapped in
`createCompilationPromise`: `compile` at wall-clock time `t`, or
`done` at time `t` carrying `stats`. -/
inductive CompileEvent where
  | compile (t : Int)
  | done (t : Int) (stats : Stats)
deriving DecidableEq, Repr

/-- State of one compilation promise: `timeStart` is the timer reset by
the `compile` hook, `settled` is the promise settlement (at most once),
`log` records the durations printed by the `done` hook. -/
structure CompState where
  timeStart : Int
  settled : Option COutcome
  log : List Int
deriving DecidableEq, Repr

/-- Initial state of `createCompilationPromise` created at wall-clock
time `t0` (`let timeStart = new Date()`). -/
def CompState.init (t0 : Int) : CompState :=
  { timeStart := t0, settled := none, log := [] }

/-- One hook firing.  `compile` resets `timeStart`; `done` logs
`timeEnd - timeStart` and then calls `reject` or `resolve`, which only
takes effect if the promise is not yet settled. -/
def compStep (s : CompState) : CompileEvent → CompState
  | .compile t => { s with timeStart := t }
  | .done t stats =>
      match s.settled with
      | some _ => { s with log := s.log ++ [t - s.timeStart] }
      | none =>
          { s with log := s.log ++ [t - s.timeStart],
                   settled := some (if stats.hasErrors then .failure else .success stats) }

/-- Run the promise machine over a whole notification sequence. -/
def compRun (t0 : Int) (evs : List CompileEvent) : CompState :=
  evs.foldl compStep (CompState.init t0)

/-- The first terminal outcome in a notification sequence: the first
`done` event, mapped to `failure` when its stats have errors and to
`success` otherwise. -/
def firstOutcome : List CompileEvent → Option COutcome
  | [] => none
  | .compile _ :: evs => firstOutcome evs
  | .done _ stats :: _ => some (if stats.hasErrors then .failure else .success stats)

/-- The most recent `compile` time in a sequence (initially `t0`). -/
def lastCompile (t0 : Int) : List CompileEvent → Int
  | [] => t0
  | .compile t :: evs => lastCompile t evs
  | .done _ _ :: evs => lastCompile t0 evs

/-- The durations a timer measuring from the most recent compile-start
would log: each `done` at time `t` contributes `t` minus the latest
`compile` time before it (initially `t0`). -/
def specDurations (t0 : Int) : List CompileEvent → List Int
  | [] => []
  | .compile t :: evs => specDurations t evs
  | .done t _ :: evs => (t - t0) :: specDurations t0 evs

/-- Full characterization of the compilation-promise machine. -/
theorem compFold_eq (evs : List CompileEvent) :
    ∀ s : CompState,
      evs.foldl compStep s =
        ⟨lastCompile s.timeStart evs, s.settled.or (firstOutcome evs),
         s.log ++ specDurations s.timeStart evs⟩ := by
  induction evs with
  | nil =>
      intro s
      cases s with
      | mk t st lg => cases st <;> simp [lastCompile, firstOutcome, specDurations, Option.or]
  | cons e evs ih =>
      intro s
      cases e with
      | compile t =>
          simp only [List.foldl_cons, compStep, lastCompile, firstOutcome, specDurations]
          exact ih { s with timeStart := t }
      | done t stats =>
          cases hs : s.settled with
          | none =>
              simp only [List.foldl_cons, compStep, hs, lastCompile, firstOutcome,
                specDurations]
              rw [ih]
              simp [Option.or]
          | some o =>
              simp only [List.foldl_cons, compStep, hs, lastCompile, firstOutcome,
                specDurations]
              rw [ih]
              simp [Option.or]

theorem firstOutcome_append (evs evs' : List CompileEvent) :
    firstOutcome (evs ++ evs') = (firstOutcome evs).or (firstOutcome evs') := by
  induction evs with
  | nil => simp [firstOutcome, Option.or]
  | cons e evs ih => cases e <;> simp [firstOutcome, ih, Option.or]

/-- **C3.** For every compiler unit and every sequence of compile-start
and compile-done(stats) notifications, the compilation promise resolves
with the build statistics if the first terminal outcome has no errors
and rejects with the compilation-failed error if it has errors (the
settled value is exactly the first terminal outcome, so later terminal
outcomes never change it — appending further notifications keeps an
already-settled value); and each logged duration is measured from the
most recent compile-start notification. -/
theorem createCompilationPromise_first_outcome (t0 : Int) (evs : List CompileEvent) :
    (compRun t0 evs).settled = firstOutcome evs ∧
    (compRun t0 evs).log = specDurations t0 evs ∧
    ∀ tail : List CompileEvent,
      (compRun t0 (evs ++ tail)).settled = ((compRun t0 evs).settled).or (firstOutcome tail) := by
  refine ⟨?_, ?_, ?_⟩
  · rw [compRun, compFold_eq]; simp [CompState.init, Option.or]
  · rw [compRun, compFold_eq]; simp [CompState.init]
  · intro tail
    rw [compRun, compRun, compFold_eq, compFold_eq, firstOutcome_append]
    simp [CompState.init, Option.or]

/-! ### Request gate (`appPromise`, tdd.js lines 144-157 and 198-205)

The gate is the triple `appPromise` / `appPromiseResolve` /
`appPromiseIsResolved`.  The server compiler's `compile` hook re-arms it
(guarded by `if (!appPromiseIsResolved) return`, so an already-armed
gate is kept rather than replaced); the `serverCompiler.watch` callback,
on a rebuild that finished without errors while a module is loaded, runs
`checkForUpdate()` and then resolves the gate.  Every inbound request
runs `appPromise.then(() => app.handle(req, res))`: it waits while the
gate is unresolved and is dispatched against the live module reference
once it resolves.

`gateGen` numbers the promise objects: it is bumped exactly when
`appPromise = new Promise(...)` executes, so an unchanged `gateGen`
means the same promise object is still in place.  `completed` counts
rebuilds that finished without errors and had their patch check run;
`appVersion` is the module version the live reference `app` embodies.
Crucially, the gate is released whenever `checkForUpdate()`'s promise
fulfills, and that promise fulfills on *every* path with patch
capability — including the soft patch-failure path (the catch handler
with status neither `abort` nor `fail`), which keeps the stale module
reference.  The rebuild-ready event therefore carries a flag `applied`:
whether the check left the live reference at the new build output
(update applied, nothing to update, or fresh reload after
`abort`/`fail`) or kept the old reference (the soft-failure path). -/

/-- Events seen by the gate after startup: the server compiler's
`compile` hook; the watch callback for a rebuild that finished without
compiler errors (`rebuild-ready`: `checkForUpdate()` ran and fulfilled,
then the gate was resolved), with `applied` recording whether the live
module reference ended at the new build output or the soft
patch-failure path retained the stale reference; and an inbound request
with identifier `r`. -/
inductive GateEvent where
  | rebuildStart
  | rebuildReady (applied : Bool)
  | request (r : Nat)
deriving DecidableEq, Repr

/-- Gate state.  `dispatched` records, for every request handed to
`app.handle`, the triple (request id, module version dispatched against,
number of completed rebuilds at the moment of dispatch). -/
structure GateState where
  armed : Bool
  gateGen : Nat
  completed : Nat
  appVersion : Nat
  pending : List Nat
  dispatched : List (Nat × Nat × Nat)
deriving DecidableEq, Repr

/-- State right after startup: the gate was resolved when the initial
server module was loaded, no rebuild has happened yet. -/
def GateState.init : GateState :=
  { armed := false, gateGen := 0, completed := 0, appVersion := 0,
    pending := [], dispatched := [] }

/-- One event.  `rebuildStart`: the `compile` hook — `if
(!appPromiseIsResolved) return;` keeps an armed gate, otherwise a fresh
unresolved promise is installed.  `rebuildReady applied`: the watch
callback on a rebuild without compiler errors — `checkForUpdate()`
fulfilled, leaving the live reference at the new version when `applied`
and at the previous `appVersion` on the soft patch-failure path; then
`appPromiseIsResolved = true; appPromiseResolve()` releases every
waiter together against that reference.  `request`:
`appPromise.then(...)` — queued while the gate is unresolved, dispatched
at once against the current module otherwise. -/
def gateStep (s : GateState) : GateEvent → GateState
  | .rebuildStart =>
      if s.armed then s
      else { s with armed := true, gateGen := s.gateGen + 1 }
  | .rebuildReady applied =>
      { s with armed := false,
               completed := s.completed + 1,
               appVersion := if applied then s.completed + 1 else s.appVersion,
               pending := [],
               dispatched :=
                 s.dispatched ++ s.pending.map (fun r =>
                   (r, if applied then s.completed + 1 else s.appVersion, s.completed + 1)) }
  | .request r =>
      if s.armed then { s with pending := s.pending ++ [r] }
      else { s with dispatched := s.dispatched ++ [(r, s.appVersion, s.completed)] }

/-- Run the gate machine from startup. -/
def gateRun (evs : List GateEvent) : GateState :=
  evs.foldl gateStep GateState.init

/-- A rebuild is outstanding after a sequence of notifications iff a
rebuild-start occurred with no rebuild-ready after it. -/
def outstandingStep (b : Bool) : GateEvent → Bool
  | .rebuildStart => true
  | .rebuildReady _ => false
  | .request _ => b

def outstanding (evs : List GateEvent) : Bool :=
  evs.foldl outstandingStep false

/-- Every rebuild-ready notification in the sequence had its patch
check apply the update or reload the module (no soft patch failure). -/
def allApplied : List GateEvent → Bool
  | [] => true
  | .rebuildReady applied :: evs => applied && allApplied evs
  | _ :: evs => allApplied evs

/-- Inductive invariant holding on every run: the live module version
never exceeds the completed-rebuild count, and no dispatch handed over
a version newer than the completed count at its moment. -/
def GateInvLe (s : GateState) : Prop :=
  s.appVersion ≤ s.completed ∧
  ∀ e ∈ s.dispatched, e.2.1 ≤ e.2.2

/-- Invariant holding on runs without soft patch failures: the live
module version equals the completed-rebuild count, and every dispatch
handed over exactly the completed count at its moment. -/
def GateInvEq (s : GateState) : Prop :=
  s.appVersion = s.completed ∧
  ∀ e ∈ s.dispatched, e.2.1 = e.2.2

theorem gateStep_le_inv (s : GateState) (e : GateEvent) (h : GateInvLe s) :
    GateInvLe (gateStep s e) := by
  obtain ⟨hv, hd⟩ := h
  cases e with
  | rebuildStart =>
      cases hb : s.armed with
      | true =>
          have he : gateStep s .rebuildStart = s := by simp [gateStep, hb]
          rw [he]; exact ⟨hv, hd⟩
      | false =>
          have he : gateStep s .rebuildStart =
              { s with armed := true, gateGen := s.gateGen + 1 } := by
            simp [gateStep, hb]
          rw [he]; exact ⟨hv, hd⟩
  | rebuildReady applied =>
      have hver : (if applied then s.completed + 1 else s.appVersion) ≤ s.completed + 1 := by
        cases applied with
        | true => simp
        | false => simpa using hv.trans (Nat.le_succ _)
      refine ⟨hver, ?_⟩
      intro x hx
      simp only [gateStep] at hx
      rcases List.mem_append.mp hx with hx' | hx'
      · exact hd x hx'
      · obtain ⟨r, _, rfl⟩ := List.mem_map.mp hx'
        exact hver
  | request r =>
      cases hb : s.armed with
      | true =>
          have he : gateStep s (.request r) = { s with pending := s.pending ++ [r] } := by
            simp [gateStep, hb]
          rw [he]; exact ⟨hv, hd⟩
      | false =>
          have he : gateStep s (.request r) =
              { s with dispatched := s.dispatched ++ [(r, s.appVersion, s.completed)] } := by
            simp [gateStep, hb]
          rw [he]
          refine ⟨hv, ?_⟩
          intro x hx
          rcases List.mem_append.mp hx with hx' | hx'
          · exact hd x hx'
          · rw [List.mem_singleton] at hx'
            subst hx'
            exact hv

theorem gateStep_eq_inv (s : GateState) (e : GateEvent) (h : GateInvEq s)
    (he : ∀ b, e = .rebuildReady b → b = true) : GateInvEq (gateStep s e) := by
  obtain ⟨hv, hd⟩ := h
  cases e with
  | rebuildStart =>
      cases hb : s.armed with
      | true =>
          have heq : gateStep s .rebuildStart = s := by simp [gateStep, hb]
          rw [heq]; exact ⟨hv, hd⟩
      | false =>
          have heq : gateStep s .rebuildStart =
              { s with armed := true, gateGen := s.gateGen + 1 } := by
            simp [gateStep, hb]
          rw [heq]; exact ⟨hv, hd⟩
  | rebuildReady applied =>
      have hb : applied = true := he applied rfl
      subst hb
      refine ⟨by simp [gateStep], ?_⟩
      intro x hx
      simp only [gateStep] at hx
      rcases List.mem_append.mp hx with hx' | hx'
      · exact hd x hx'
      · obtain ⟨r, _, rfl⟩ := List.mem_map.mp hx'
        simp
  | request r =>
      cases hb : s.armed with
      | true =>
          have heq : gateStep s (.request r) = { s with pending := s.pending ++ [r] } := by
            simp [gateStep, hb]
          rw [heq]; exact ⟨hv, hd⟩
      | false =>
          have heq : gateStep s (.request r) =
              { s with dispatched := s.dispatched ++ [(r, s.appVersion, s.completed)] } := by
            simp [gateStep, hb]
          rw [heq]
          refine ⟨hv, ?_⟩
          intro x hx
          rcases List.mem_append.mp hx with hx' | hx'
          · exact hd x hx'
          · rw [List.mem_singleton] at hx'
            subst hx'
            exact hv

theorem gateStep_armed (s : GateState) (e : GateEvent) :
    (gateStep s e).armed = outstandingStep s.armed e := by
  cases e with
  | rebuildStart => by_cases hb : s.armed <;> simp [gateStep, outstandingStep, hb]
  | rebuildReady applied => simp [gateStep, outstandingStep]
  | request r => by_cases hb : s.armed <;> simp [gateStep, outstandingStep, hb]

theorem gateFold_aux (evs : List GateEvent) :
    ∀ s : GateState, GateInvLe s →
      GateInvLe (evs.foldl gateStep s) ∧
      (evs.foldl gateStep s).armed = evs.foldl outstandingStep s.armed ∧
      (allApplied evs = true → GateInvEq s → GateInvEq (evs.foldl gateStep s)) := by
  induction evs with
  | nil => intro s h; exact ⟨h, rfl, fun _ hq => hq⟩
  | cons e evs ih =>
      intro s h
      obtain ⟨h1, h2, h3⟩ := ih (gateStep s e) (gateStep_le_inv s e h)
      refine ⟨h1, ?_, ?_⟩
      · rw [List.foldl_cons, List.foldl_cons, h2, gateStep_armed]
      · intro hall heq
        rw [List.foldl_cons]
        cases e with
        | rebuildStart =>
            exact h3 (by simpa [allApplied] using hall)
              (gateStep_eq_inv s _ heq (fun b hb => by cases hb))
        | rebuildReady applied =>
            have hall' : applied = true ∧ allApplied evs = true := by
              simpa [allApplied] using hall
            exact h3 hall'.2
              (gateStep_eq_inv s _ heq
                (fun b hb => by injection hb with hb'; rw [← hb']; exact hall'.1))
        | request r =>
            exact h3 (by simpa [allApplied] using hall)
              (gateStep_eq_inv s _ heq (fun b hb => by cases hb))

/-- Counterexample to C1 as stated: the trace rebuild-start, then
rebuild-ready whose patch check soft-failed (catch with status neither
`abort` nor `fail`, stale module kept while the gate is still
released), then an inbound request.  The rebuild counts as completed
(`completed = 1`), yet the request is dispatched against the retained
module version `0` — older than the most recently completed rebuild. -/
theorem appPromise_gate_ordering_counterexample :
    (gateRun [.rebuildStart, .rebuildReady false, .request 0]).dispatched = [(0, 0, 1)] ∧
    (gateRun [.rebuildStart, .rebuildReady false, .request 0]).completed = 1 ∧
    (gateRun [.rebuildStart, .rebuildReady false, .request 0]).appVersion = 0 ∧
    (gateRun [.rebuildStart, .rebuildReady false, .request 0]).armed = false := by
  decide

/-- **C1 (amended).** For every sequence of server rebuild-start and
rebuild-ready notifications (interleaved with inbound requests), the
request gate `appPromise` is unresolved exactly while a rebuild is
outstanding — armed at a compile-start, resolved only by the watch
callback after the rebuild finished without errors and the patch check
ran.  No request is dispatched against a module version *newer* than
the most recently completed rebuild, and on every trace in which no
patch check soft-fails, the dispatched version equals the
completed-rebuild count at the moment of dispatch; after a soft patch
failure, however, the gate is still released and requests are
dispatched against the retained older module version. -/
theorem appPromise_gate_ordering (evs : List GateEvent) :
    (gateRun evs).armed = outstanding evs ∧
    (gateRun evs).appVersion ≤ (gateRun evs).completed ∧
    (∀ e ∈ (gateRun evs).dispatched, e.2.1 ≤ e.2.2) ∧
    (allApplied evs = true →
      (gateRun evs).appVersion = (gateRun evs).completed ∧
      ∀ e ∈ (gateRun evs).dispatched, e.2.1 = e.2.2) := by
  have h := gateFold_aux evs GateState.init
    ⟨Nat.le_refl 0, by intro x hx; simp [GateState.init] at hx⟩
  refine ⟨h.2.1, h.1.1, h.1.2, ?_⟩
  intro hall
  exact h.2.2 hall ⟨rfl, by intro x hx; simp [GateState.init] at hx⟩

/-- Witness for the amended C1: a trace with one applied rebuild and a
queued plus a late request, discharging the no-soft-failure
hypothesis. -/
theorem appPromise_gate_ordering_witness :
    allApplied [.rebuildStart, .request 7, .rebuildReady true, .request 8] = true ∧
    ((gateRun [.rebuildStart, .request 7, .rebuildReady true, .request 8]).appVersion =
      (gateRun [.rebuildStart, .request 7, .rebuildReady true, .request 8]).completed ∧
     ∀ e ∈ (gateRun [.rebuildStart, .request 7, .rebuildReady true, .request 8]).dispatched,
       e.2.1 = e.2.2) :=
  ⟨by decide,
   (appPromise_gate_ordering [.rebuildStart, .request 7, .rebuildReady true, .request 8]).2.2.2
     (by decide)⟩

/-- **C8.** Re-arming is idempotent under rapid repeated rebuild-start
notifications: if a rebuild is already pending (the gate is unresolved),
a second compile-start leaves the state — in particular the promise
generation `gateGen` — completely unchanged, coalescing into the
existing unresolved gate; only a compile-start on a resolved gate
installs a fresh promise.  Hence there are never two overlapping arm
periods for the server target. -/
theorem appPromise_rearm_coalesces (s : GateState) (h : s.armed = true) :
    gateStep s .rebuildStart = s ∧
    (gateStep s .rebuildStart).gateGen = s.gateGen := by
  constructor <;> simp [gateStep, h]

/-- Witness for C8: a concrete armed state is left untouched by a second
rebuild-start. -/
theorem appPromise_rearm_coalesces_witness :
    (gateStep (gateRun [.rebuildStart]) .rebuildStart = gateRun [.rebuildStart]) ∧
    (gateStep (gateRun [.rebuildStart]) .rebuildStart).gateGen =
      (gateRun [.rebuildStart]).gateGen :=
  appPromise_rearm_coalesces (gateRun [.rebuildStart]) (by decide)

/-! ### Once-only cleanup (`cleanupAndExit`, tdd.js lines 74-87)

`let cleaning = null;` stores the in-flight cleanup promise.  Each call
to `cleanupAndExit` checks the marker: if it is unset, it synchronously
installs the promise of an immediately-invoked async function that runs
`dockerTeardown()` and then `outerResolve()`; every call returns the
stored promise.  JavaScript's event loop runs each synchronous
check-and-set without interleaving, so concurrent triggers (kill
signals, the startup catch block) arrive as a sequence of calls. -/

/-- State shared by all invocations of `cleanupAndExit`.  `cleaning`
holds the identifier of the in-flight cleanup promise (`none` =
`null`); `futuresCreated` counts cleanup promises ever created;
`teardownCount` counts executions of `dockerTeardown()`;
`resolveCount` counts executions of `outerResolve()`. -/
structure CleanupState where
  cleaning : Option Nat
  futuresCreated : Nat
  teardownCount : Nat
  resolveCount : Nat
deriving DecidableEq, Repr

def CleanupState.init : CleanupState :=
  { cleaning := none, futuresCreated := 0, teardownCount := 0, resolveCount := 0 }

/-- One invocation of `cleanupAndExit`: returns the identifier of the
promise handed back to the caller, plus the new shared state.  When
`cleaning` is set, the stored promise is returned unchanged; otherwise a
new cleanup future is created whose body tears down docker and resolves
the outer promise once. -/
def cleanupAndExit (s : CleanupState) : Nat × CleanupState :=
  match s.cleaning with
  | some fid => (fid, s)
  | none =>
      (s.futuresCreated,
       { cleaning := some s.futuresCreated,
         futuresCreated := s.futuresCreated + 1,
         teardownCount := s.teardownCount + 1,
         resolveCount := s.resolveCount + 1 })

/-- Invoke `cleanupAndExit` `n` times in sequence, collecting the
returned promise identifiers. -/
def cleanupRun : Nat → CleanupState → List Nat × CleanupState
  | 0, s => ([], s)
  | n + 1, s =>
      let (fid, s') := cleanupAndExit s
      let (fids, s'') := cleanupRun n s'
      (fid :: fids, s'')

theorem cleanupAndExit_init :
    cleanupAndExit CleanupState.init =
      (0, { cleaning := some 0, futuresCreated := 1, teardownCount := 1, resolveCount := 1 }) :=
  rfl

/-- After the first invocation the state is a fixed point and every
later invocation returns the stored promise identifier. -/
theorem cleanupRun_fixed (n : Nat) (s : CleanupState) (fid : Nat)
    (h : s.cleaning = some fid) :
    cleanupRun n s = (List.replicate n fid, s) := by
  induction n with
  | zero => rfl
  | succ n ih =>
      simp only [cleanupRun, cleanupAndExit, h, ih, List.replicate_succ]

/-- **C2.** For every number `N ≥ 1` of invocations of `cleanupAndExit`
(from termination signals and/or the startup catch block), the docker
teardown runs exactly once and the outer completion promise is resolved
exactly once; exactly one cleanup future is ever created, and every
invocation after the first returns the same in-flight future (the one
the first invocation stored) rather than starting a new cleanup. -/
theorem cleanupAndExit_once (n : Nat) (h : 1 ≤ n) :
    (cleanupRun n CleanupState.init).2.teardownCount = 1 ∧
    (cleanupRun n CleanupState.init).2.resolveCount = 1 ∧
    (cleanupRun n CleanupState.init).2.futuresCreated = 1 ∧
    (cleanupRun n CleanupState.init).1 = List.replicate n 0 := by
  obtain ⟨m, rfl⟩ : ∃ m, n = m + 1 := ⟨n - 1, (Nat.succ_pred_eq_of_pos h).symm⟩
  have hstep : cleanupRun (m + 1) CleanupState.init =
      (0 :: List.replicate m 0,
       { cleaning := some 0, futuresCreated := 1, teardownCount := 1, resolveCount := 1 }) := by
    simp only [cleanupRun, cleanupAndExit_init]
    rw [cleanupRun_fixed m _ 0 rfl]
  rw [hstep]
  exact ⟨rfl, rfl, rfl, (List.replicate_succ 0 m).symm⟩

/-- Witness for C2: three invocations tear down docker once, resolve the
outer promise once, and all return the same future. -/
theorem cleanupAndExit_once_witness :
    (cleanupRun 3 CleanupState.init).2.teardownCount = 1 ∧
    (cleanupRun 3 CleanupState.init).2.resolveCount = 1 ∧
    (cleanupRun 3 CleanupState.init).2.futuresCreated = 1 ∧
    (cleanupRun 3 CleanupState.init).1 = List.replicate 3 0 :=
  cleanupAndExit_once 3 (by decide)

/-! ### Incremental patch check (`checkForUpdate`, tdd.js lines 158-196)

`checkForUpdate(fromUpdate)` inspects the live module `app`:

* if `app.hot` is absent it throws `Hot Module Replacement is disabled.`
  synchronously (before any patch attempt);
* if `app.hot.status() !== 'idle'` it returns a resolved promise without
  doing anything;
* otherwise it calls `app.hot.check(true)`.  A null result logs
  `Update applied.` when re-entered from an update; an empty list logs
  `Nothing hot updated.`; a non-empty list logs each module id and
  re-enters `checkForUpdate(true)` to drain a queued update.  A check
  failure is caught inside: if `app.hot.status()` is `'abort'` or
  `'fail'` the require cache entry for the build output is deleted and
  `app` is re-required fresh; otherwise a soft warning is logged and the
  module reference is left unchanged.

Each call to `app.hot.check(true)` is modelled as consuming the head of
a script of check results (the environment decides what each check
yields). -/

/-- Webpack HMR engine statuses. -/
inductive HotStatus where
  | idle | check | prepare | ready | dispose | apply | abort | fail
deriving DecidableEq, Repr

/-- The live server module reference `app`.  `hasHot` embeds the
presence of `app.hot`; `status` is `app.hot.status()` as stored between
check cycles; `generation` counts fresh loads of the build output, so a
bumped generation means the require cache was evicted and the module
re-required. -/
structure App where
  hasHot : Bool
  status : HotStatus
  generation : Nat
deriving DecidableEq, Repr

/-- `delete require.cache[...]; app = require('../build/server').default`:
a fresh module instance whose patch engine starts idle. -/
def App.reload (a : App) : App :=
  { hasHot := true, status := .idle, generation := a.generation + 1 }

/-- What one call to `app.hot.check(true)` yields: a fulfilled promise
carrying `updatedModules` (`none` embeds a null result), or a rejection,
tagged with the value `app.hot.status()` has when the catch handler
runs. -/
inductive CheckResult where
  | ok (updatedModules : Option (List String))
  | err (statusAtCatch : HotStatus)
deriving DecidableEq, Repr

/-- Console lines produced by the patch loop. -/
inductive LogEntry where
  | updateApplied
  | nothingUpdated
  | updatedModulesHeader
  | updatedModule (id : String)
  | cannotApply
  | appReloaded
  | updateFailed
deriving DecidableEq, Repr

/-- The error thrown when the module lacks patch capability:
`Hot Module Replacement is disabled.`. -/
inductive PatchError where
  | hmrDisabled
deriving DecidableEq, Repr

/-- `checkForUpdate`.  In the source the only explicit parameter is
`fromUpdate`; the module reference `app` and the behaviour of
`app.hot.check` (here the script) are ambient, so they appear as
explicit arguments, placed before `fromUpdate` (which varies across the
recursive drain call).  Returns `.error` when the capability throw
escapes, and otherwise the module reference after the cycle, the lines
logged, and the unconsumed tail of the check script.  An exhausted
script means the environment never settles `app.hot.check`; the cycle
then has no further effect. -/
def checkForUpdate (a : App) (script : List CheckResult) (fromUpdate : Bool) :
    Except PatchError (App × List LogEntry × List CheckResult) :=
  if a.hasHot = false then .error .hmrDisabled
  else if a.status ≠ .idle then .ok (a, [], script)
  else
    match script with
    | [] => .ok (a, [], [])
    | .ok none :: rest => .ok (a, if fromUpdate then [.updateApplied] else [], rest)
    | .ok (some []) :: rest => .ok (a, [.nothingUpdated], rest)
    | .ok (some (m :: ms)) :: rest =>
        match checkForUpdate a rest true with
        | .error e => .error e
        | .ok (a', logs', rest') =>
            .ok (a', (.updatedModulesHeader :: (m :: ms).map .updatedModule) ++ logs', rest')
    | .err st :: rest =>
        if st = .abort ∨ st = .fail then
          .ok (a.reload, [.cannotApply, .appReloaded], rest)
        else
          .ok (a, [.updateFailed], rest)

/-- Outcome of one firing of the `serverCompiler.watch` callback
(tdd.js lines 198-205).  `gateReleased` — `appPromiseResolve()` ran;
`thrown` — an exception escaped the callback uncaught; `cleanupInvoked`
— `cleanupAndExit` ran.  The callback never reaches `cleanupAndExit`:
that closure is called only from `onKillSignal` and the `catch` block of
`start`, and a throw inside the watch callback propagates into the
watcher, not into that `catch`. -/
structure WatchOutcome where
  app : Option App
  gateReleased : Bool
  thrown : Bool
  cleanupInvoked : Bool
  logs : List LogEntry
deriving DecidableEq, Repr

/-- The `serverCompiler.watch` callback: on `(error, stats)` it does
nothing unless a module is loaded, `error` is null and
`stats.hasErrors()` is false; otherwise it runs `checkForUpdate()` and,
when that promise fulfills, releases the gate.  A synchronous throw
from `checkForUpdate` (the capability error) escapes before the
`.then` handler is installed, so the gate is not released and no
cleanup runs. -/
def watchCallback (app : Option App) (error : Bool) (statsHasErrors : Bool)
    (script : List CheckResult) : WatchOutcome :=
  match app with
  | none => ⟨none, false, false, false, []⟩
  | some a =>
      if error ∨ statsHasErrors then ⟨some a, false, false, false, []⟩
      else
        match checkForUpdate a script false with
        | .error _ => ⟨some a, false, true, false, []⟩
        | .ok (a', logs, _) => ⟨some a', true, false, false, logs⟩

/-- **C7.** A rebuild-ready notification arriving while the live
module's patch status is not idle is a no-op: `checkForUpdate` performs
no state transition, consumes no check (requests no module-change
list), logs nothing, and returns a fulfilled promise immediately. -/
theorem checkForUpdate_busy_noop (fromUpdate : Bool) (a : App) (script : List CheckResult)
    (hhot : a.hasHot = true) (hst : a.status ≠ .idle) :
    checkForUpdate a script fromUpdate = .ok (a, [], script) := by
  rw [checkForUpdate.eq_def]
  simp [hhot, hst]

/-- Witness for C7: a module mid-check is left untouched. -/
theorem checkForUpdate_busy_noop_witness :
    checkForUpdate ⟨true, .check, 0⟩ [.ok (some ["m"])] false =
      .ok (⟨true, .check, 0⟩, [], [.ok (some ["m"])]) :=
  checkForUpdate_busy_noop false ⟨true, .check, 0⟩ [.ok (some ["m"])] rfl (by decide)

/-- **C5.** On a patch-check failure: when the engine status observed in
the catch handler is `abort` or `fail`, the cached module is evicted and
the server module reloaded fresh from build output (generation bumped,
engine idle — the stale module is not kept); for any other status the
failure is logged as a soft warning and the module reference is
returned unchanged.  In both cases the result is a fulfilled promise —
the patch loop returns to idle rather than propagating the error. -/
theorem checkForUpdate_failure_paths (a : App) (st : HotStatus) (rest : List CheckResult)
    (hhot : a.hasHot = true) (hst : a.status = .idle) :
    (st = .abort ∨ st = .fail →
      checkForUpdate a (.err st :: rest) false =
        .ok (a.reload, [.cannotApply, .appReloaded], rest)) ∧
    (¬(st = .abort ∨ st = .fail) →
      checkForUpdate a (.err st :: rest) false =
        .ok (a, [.updateFailed], rest)) := by
  constructor <;> intro h <;> rw [checkForUpdate.eq_def] <;> simp [hhot, hst, h]

/-- Witness for C5: a failure at status `abort` reloads the module
fresh; a failure at status `idle` keeps it. -/
theorem checkForUpdate_failure_paths_witness :
    checkForUpdate ⟨true, .idle, 0⟩ [.err .abort] false =
      .ok (⟨true, .idle, 1⟩, [.cannotApply, .appReloaded], []) ∧
    checkForUpdate ⟨true, .idle, 0⟩ [.err .dispose] false =
      .ok (⟨true, .idle, 0⟩, [.updateFailed], []) := by
  constructor
  · exact (checkForUpdate_failure_paths ⟨true, .idle, 0⟩ .abort [] rfl rfl).1 (by decide)
  · exact (checkForUpdate_failure_paths ⟨true, .idle, 0⟩ .dispose [] rfl rfl).2 (by decide)

/-- With patch capability present, `checkForUpdate` always yields a
fulfilled promise — every failure of `app.hot.check` is caught inside —
and the resulting module reference still has patch capability. -/
theorem checkForUpdate_hasHot_ok (a : App) (hhot : a.hasHot = true) :
    ∀ (script : List CheckResult) (fromUpdate : Bool),
      ∃ a' logs rest,
        checkForUpdate a script fromUpdate = .ok (a', logs, rest) ∧ a'.hasHot = true := by
  intro script
  induction script with
  | nil =>
      intro fromUpdate
      refine ⟨a, [], [], ?_, hhot⟩
      by_cases hst : a.status = .idle
      · rw [checkForUpdate.eq_def]; simp [hhot, hst]
      · rw [checkForUpdate.eq_def]; simp [hhot, hst]
  | cons r rest ih =>
      intro fromUpdate
      by_cases hst : a.status = .idle
      · cases r with
        | ok upd =>
            cases upd with
            | none =>
                exact ⟨a, if fromUpdate then [.updateApplied] else [], rest,
                  by rw [checkForUpdate.eq_def]; simp [hhot, hst], hhot⟩
            | some l =>
                cases l with
                | nil =>
                    exact ⟨a, [.nothingUpdated], rest,
                      by rw [checkForUpdate.eq_def]; simp [hhot, hst], hhot⟩
                | cons m ms =>
                    obtain ⟨a', logs', rest', heq, hhot'⟩ := ih true
                    exact ⟨a', (.updatedModulesHeader :: (m :: ms).map .updatedModule) ++ logs',
                      rest', by rw [checkForUpdate.eq_def]; simp [hhot, hst, heq], hhot'⟩
        | err st =>
            by_cases hab : st = .abort ∨ st = .fail
            · exact ⟨a.reload, [.cannotApply, .appReloaded], rest,
                by rw [checkForUpdate.eq_def]; simp [hhot, hst, hab], rfl⟩
            · exact ⟨a, [.updateFailed], rest,
                by rw [checkForUpdate.eq_def]; simp [hhot, hst, hab], hhot⟩
      · exact ⟨a, [], r :: rest, by rw [checkForUpdate.eq_def]; simp [hhot, hst], hhot⟩

/-- **C9.** A patch check yielding a non-empty module-change list logs
the header and each changed unit, then recursively re-enters the check
to drain any update queued behind it, prepending its logs to those of
the drained cycle; in particular a rebuild yielding `['moduleA']`
followed by a nested check yielding `[]` ends with the module unchanged
(patch loop idle), having logged one updated-modules entry listing
`moduleA` and one nothing-updated entry. -/
theorem checkForUpdate_drains_queued_updates (a : App) (m : String) (ms : List String)
    (rest : List CheckResult) (hhot : a.hasHot = true) (hst : a.status = .idle) :
    (∃ a' logs' rest',
      checkForUpdate a rest true = .ok (a', logs', rest') ∧
      checkForUpdate a (.ok (some (m :: ms)) :: rest) false =
        .ok (a', (.updatedModulesHeader :: (m :: ms).map .updatedModule) ++ logs', rest')) ∧
    checkForUpdate a [.ok (some ["moduleA"]), .ok (some [])] false =
      .ok (a, [.updatedModulesHeader, .updatedModule "moduleA", .nothingUpdated], []) := by
  constructor
  · obtain ⟨a', logs', rest', heq, _⟩ := checkForUpdate_hasHot_ok a hhot rest true
    exact ⟨a', logs', rest', heq, by rw [checkForUpdate.eq_def]; simp [hhot, hst, heq]⟩
  · have h2 : checkForUpdate a [.ok (some [])] true = .ok (a, [.nothingUpdated], []) := by
      rw [checkForUpdate.eq_def]; simp [hhot, hst]
    rw [checkForUpdate.eq_def]
    simp [hhot, hst, h2]

/-- Witness for C9: the two-check scenario run on a concrete idle
module. -/
theorem checkForUpdate_drains_queued_updates_witness :
    checkForUpdate ⟨true, .idle, 0⟩ [.ok (some ["moduleA"]), .ok (some [])] false =
      .ok (⟨true, .idle, 0⟩,
           [.updatedModulesHeader, .updatedModule "moduleA", .nothingUpdated], []) :=
  (checkForUpdate_drains_queued_updates ⟨true, .idle, 0⟩ "moduleA" [] [] rfl rfl).2

/-- **C10.** For every watched rebuild that finishes without compiler
errors while a patch-capable module is loaded, the watch callback
releases the request gate even when the patch check fails: every
failure path of `checkForUpdate` is caught inside the check, so the
check's promise fulfills, the `.then` handler runs, and the gate is
resolved with the live reference pointing at a patch-capable module
(retained or freshly reloaded) — queued requests are dispatched rather
than suspending forever. -/
theorem watch_releases_gate_despite_patch_failure (a : App) (script : List CheckResult)
    (hhot : a.hasHot = true) :
    ∃ a' logs rest,
      checkForUpdate a script false = .ok (a', logs, rest) ∧ a'.hasHot = true ∧
      watchCallback (some a) false false script = ⟨some a', true, false, false, logs⟩ := by
  obtain ⟨a', logs, rest, heq, hhot'⟩ := checkForUpdate_hasHot_ok a hhot script false
  exact ⟨a', logs, rest, heq, hhot', by simp [watchCallback, heq]⟩

/-- Witness for C10: a rebuild whose patch check fails at status `fail`
still releases the gate, with the module freshly reloaded. -/
theorem watch_releases_gate_despite_patch_failure_witness :
    ∃ a' logs rest,
      checkForUpdate ⟨true, .idle, 0⟩ [.err .fail] false = .ok (a', logs, rest) ∧
      a'.hasHot = true ∧
      watchCallback (some ⟨true, .idle, 0⟩) false false [.err .fail] =
        ⟨some a', true, false, false, logs⟩ :=
  watch_releases_gate_despite_patch_failure ⟨true, .idle, 0⟩ [.err .fail] rfl

/-- Counterexample to C6 as stated: with a module lacking `app.hot`, the
capability error is thrown (`thrown = true`), but it is *not* routed to
cleanup — `cleanupAndExit` is reachable only from `onKillSignal` and the
`catch` block of `start`, and a synchronous throw inside the watch
callback reaches neither, so no cleanup is invoked and the gate stays
unreleased. -/
theorem checkForUpdate_no_hot_cleanup_counterexample :
    checkForUpdate ⟨false, .idle, 0⟩ [] false = .error .hmrDisabled ∧
    (watchCallback (some ⟨false, .idle, 0⟩) false false []).thrown = true ∧
    (watchCallback (some ⟨false, .idle, 0⟩) false false []).cleanupInvoked = false ∧
    (watchCallback (some ⟨false, .idle, 0⟩) false false []).gateReleased = false :=
  ⟨rfl, rfl, rfl, rfl⟩

/-- **C6 (amended).** If the loaded server module lacks
incremental-patch capability entirely, the patch check throws a fatal
capability error before consuming any check result — distinct from a
recoverable failed patch attempt, which is caught inside the check and
leaves the check's promise fulfilled — and the throw escapes the watch
callback uncaught (the gate is not released); it is not routed to the
in-process cleanup path. -/
theorem checkForUpdate_no_hot_fatal (a b : App) (script : List CheckResult) (fromUpdate : Bool)
    (hnohot : a.hasHot = false) (hhot : b.hasHot = true) :
    checkForUpdate a script fromUpdate = .error .hmrDisabled ∧
    watchCallback (some a) false false script = ⟨some a, false, true, false, []⟩ ∧
    ∃ b' logs rest, checkForUpdate b script fromUpdate = .ok (b', logs, rest) := by
  refine ⟨?_, ?_, ?_⟩
  · rw [checkForUpdate.eq_def]; simp [hnohot]
  · have h1 : checkForUpdate a script false = .error .hmrDisabled := by
      rw [checkForUpdate.eq_def]; simp [hnohot]
    simp [watchCallback, h1]
  · obtain ⟨b', logs, rest, heq, _⟩ := checkForUpdate_hasHot_ok b hhot script fromUpdate
    exact ⟨b', logs, rest, heq⟩

/-- Witness for the amended C6. -/
theorem checkForUpdate_no_hot_fatal_witness :
    checkForUpdate ⟨false, .idle, 0⟩ [.err .fail] false = .error .hmrDisabled ∧
    watchCallback (some ⟨false, .idle, 0⟩) false false [.err .fail] =
      ⟨some ⟨false, .idle, 0⟩, false, true, false, []⟩ ∧
    ∃ b' logs rest,
      checkForUpdate ⟨true, .idle, 0⟩ [.err .fail] false = .ok (b', logs, rest) :=
  checkForUpdate_no_hot_fatal ⟨false, .idle, 0⟩ ⟨true, .idle, 0⟩ [.err .fail] false rfl rfl

/-! ### Startup flow (`start`, tdd.js lines 207-242)

After wiring the compilers, `start` awaits `clientPromise` and then
`serverPromise`; a rejection of either escapes into the `catch` block,
which runs `cleanupAndExit` — the server module is then never required.
Only when both promises fulfil does `start` execute
`app = require('../build/server').default; appPromiseIsResolved = true;
appPromiseResolve();`, releasing the gate once.  During the initial
builds the watch callback does fire on every server `done`, but its
`if (app && ...)` guard sees `app` still unset, so it contributes no
release. -/

/-- Gate releases contributed by the watch callback while `app` is still
unset: one firing per server `done` notification, each with a null
module reference. -/
def initialWatchReleases (serverEvents : List CompileEvent) : Nat :=
  (serverEvents.map (fun e =>
    match e with
    | .done _ stats =>
        if (watchCallback none false stats.hasErrors []).gateReleased then 1 else 0
    | .compile _ => 0)).sum

/-- Observable outcome of the startup flow. -/
structure StartOutcome where
  appLoaded : Bool
  releaseCount : Nat
  cleanupInvoked : Bool
deriving DecidableEq, Repr

/-- The startup flow as a function of the two compilers' notification
sequences: await the client promise, then the server promise; a
rejection enters the catch block (cleanup), an unsettled promise stalls,
and double success loads the module and releases the gate. -/
def startRun (t0 : Int) (clientEvents serverEvents : List CompileEvent) : StartOutcome :=
  let w := initialWatchReleases serverEvents
  match (compRun t0 clientEvents).settled with
  | some .failure => ⟨false, w, true⟩
  | none => ⟨false, w, false⟩
  | some (.success _) =>
      match (compRun t0 serverEvents).settled with
      | some .failure => ⟨false, w, true⟩
      | none => ⟨false, w, false⟩
      | some (.success _) => ⟨true, w + 1, false⟩

theorem compRun_settled (t0 : Int) (evs : List CompileEvent) :
    (compRun t0 evs).settled = firstOutcome evs := by
  rw [compRun, compFold_eq]; simp [CompState.init, Option.or]

/-- An outcome that resolves the compilation promise. -/
def isSuccess : Option COutcome → Bool
  | some (.success _) => true
  | _ => false

/-- An outcome that rejects the compilation promise. -/
def isFailure : Option COutcome → Bool
  | some .failure => true
  | _ => false

/-- **C4.** Provided both initial compiles reach a terminal outcome: the
server module is loaded iff both the client and server compilation
promises resolved successfully, and the catch block (cleanup) is entered
iff either initial compile failed — so a failing initial compile for
either target means the module is never required and control enters
cleanup.  In the success scenario — compile-start then compile-done
with no errors for both targets — the module loads and the gate release
fires exactly once. -/
theorem start_loads_only_after_success (t0 : Int) (ce se : List CompileEvent)
    (hc : firstOutcome ce ≠ none) (hs : firstOutcome se ≠ none) :
    (startRun t0 ce se).appLoaded = (isSuccess (firstOutcome ce) && isSuccess (firstOutcome se)) ∧
    (startRun t0 ce se).cleanupInvoked =
      (isFailure (firstOutcome ce) || isFailure (firstOutcome se)) ∧
    startRun t0 [.compile 0, .done 1 ⟨false, 0⟩] [.compile 0, .done 2 ⟨false, 1⟩] =
      ⟨true, 1, false⟩ := by
  obtain ⟨oc, hco⟩ := Option.ne_none_iff_exists'.mp hc
  obtain ⟨os, hso⟩ := Option.ne_none_iff_exists'.mp hs
  have hrc : (compRun t0 ce).settled = some oc := (compRun_settled t0 ce).trans hco
  have hrs : (compRun t0 se).settled = some os := (compRun_settled t0 se).trans hso
  refine ⟨?_, ?_, rfl⟩
  · cases oc <;> cases os <;> simp [startRun, hrc, hrs, hco, hso, isSuccess]
  · cases oc <;> cases os <;> simp [startRun, hrc, hrs, hco, hso, isFailure]

/-- Witness for C4: the success scenario discharges both termination
hypotheses. -/
theorem start_loads_only_after_success_witness :
    (startRun 0 [.compile 0, .done 1 ⟨false, 0⟩] [.compile 0, .done 2 ⟨false, 1⟩]).appLoaded =
      (isSuccess (firstOutcome [.compile 0, .done 1 ⟨false, 0⟩]) &&
       isSuccess (firstOutcome [.compile 0, .done 2 ⟨false, 1⟩])) ∧
    (startRun 0 [.compile 0, .done 1 ⟨false, 0⟩] [.compile 0, .done 2 ⟨false, 1⟩]).cleanupInvoked =
      (isFailure (firstOutcome [.compile 0, .done 1 ⟨false, 0⟩]) ||
       isFailure (firstOutcome [.compile 0, .done 2 ⟨false, 1⟩])) ∧
    startRun 0 [.compile 0, .done 1 ⟨false, 0⟩] [.compile 0, .done 2 ⟨false, 1⟩] =
      ⟨true, 1, false⟩ :=
  start_loads_only_after_success 0 [.compile 0, .done 1 ⟨false, 0⟩]
    [.compile 0, .done 2 ⟨false, 1⟩] (by decide) (by decide)

end Tdd
